import Mathlib

/-!
Verification of the afad_quake record-normalization and daily-aggregation
engine (`src/afad_quake/dataset.py`, `src/afad_quake/constants.py`).

Modelling conventions:
* Raw record cells are `Val` (JSON-like scalars); Python `None` is `Val.vnull`.
* Instants are whole minutes in the reference timezone Europe/Istanbul.
  Istanbul is a fixed UTC+3 offset (no DST), so pandas day flooring in that
  timezone is flooring of the local minute count: `Int.fdiv t 1440`, and the
  day `d` starts at minute `1440 * d`.
* Float arithmetic is idealized as exact arithmetic: magnitudes, depths and
  other coerced numerics are `ℚ`; the derived energy `10 ** (a + b*M)` is `ℝ`.
* A missing cell (pandas NaN / NaT) is `none` (or `Val.vnull` for
  object-typed columns).
* A raised Python exception is `Except.error`.
-/

namespace AfadQuake

/-- A loosely-typed scalar cell of a raw AFAD record. `vnull` is Python
`None` / JSON null. -/
inductive Val where
  | vstr (s : String)
  | vnum (q : ℚ)
  | vbool (b : Bool)
  | vnull
deriving DecidableEq

/-- A raw record: a flat string-keyed mapping, modelled as an association
list (first binding wins, as in a Python dict there are no duplicate keys). -/
abbrev RawRecord := List (String × Val)

/-- `constants.CANONICAL_FIELDS`: the canonical column names, in declared
order. -/
def CANONICAL_FIELDS : List String :=
  ["event_id", "time", "latitude", "longitude", "depth_km", "magnitude",
   "mag_type", "location", "province", "district", "country", "neighborhood",
   "rms", "is_event_update", "last_update_time"]

/-- The per-field alias lists of `EarthquakeDataset._normalize_record`,
in the order the canonical output dict is written. -/
def ALIASES : List (String × List String) :=
  [("event_id", ["eventid", "eventId", "eventID", "id"]),
   ("time", ["time", "date", "datetime", "eventDate", "lastOccurrenceTime"]),
   ("latitude", ["latitude", "lat"]),
   ("longitude", ["longitude", "lon", "lng"]),
   ("depth_km", ["depth_km", "depth"]),
   ("magnitude", ["magnitude", "mag"]),
   ("mag_type", ["type", "magType"]),
   ("location", ["location", "title", "place"]),
   ("province", ["province", "il"]),
   ("district", ["district", "ilce"]),
   ("country", ["country"]),
   ("neighborhood", ["neighborhood", "mahalle"]),
   ("rms", ["rms"]),
   ("is_event_update", ["iseventupdate", "isEventUpdate"]),
   ("last_update_time", ["lastupdatedate", "lastUpdate", "last_update_time"])]

/-- `_normalize_record.g(*names)`: return the value of the first alias that
is present as a key; `vnull` (Python `None`) when no alias is present. -/
def g (r : RawRecord) : List String → Val
  | [] => Val.vnull
  | n :: ns =>
    match r.lookup n with
    | some v => v
    | none => g r ns

/-- `_normalize_record`: the canonical ordered output dict, one entry per
canonical field, resolved first-match-wins. Purely key renaming/selection. -/
def normalizeRecord (r : RawRecord) : List (String × Val) :=
  ALIASES.map (fun fa => (fa.1, g r fa.2))

/-- One row of the working DataFrame, after the column-wise coercions of
`to_dataframe`. All cells are nullable. `energy_J` is the cell of the (at
most one) derived energy column, `event_count` exists only after
aggregation; for an event-level table both are `none`. -/
structure Row where
  event_id : Val
  time : Option ℤ
  latitude : Option ℚ
  longitude : Option ℚ
  depth_km : Option ℚ
  magnitude : Option ℚ
  mag_type : Val
  location : Val
  province : Val
  district : Val
  country : Val
  neighborhood : Val
  rms : Option ℚ
  is_event_update : Val
  last_update_time : Val
  energy_J : Option ℝ := none
  event_count : Option ℕ := none

/-- The working table (the dataset's current DataFrame view). `energyCol`
records whether a derived energy column exists and under which name
(`convert_energy` writes at most one such column in any chain the claims
cover). -/
structure Table where
  energyCol : Option String := none
  rows : List Row

/-- `pd.to_numeric(errors="coerce")` on one cell. Numeric-looking strings
are abstracted as unparsable (no claim depends on string-to-float parsing). -/
def toNum : Val → Option ℚ
  | Val.vnum q => some q
  | Val.vbool b => some (if b then 1 else 0)
  | _ => none

/-- `pd.to_datetime(errors="coerce")` followed by localize/convert to
Europe/Istanbul, on one cell. Parsable instants are modelled as whole
minutes of Istanbul wall-clock time carried as `vnum`; everything else is
NaT. -/
def toTime : Val → Option ℤ
  | Val.vnum q => if q.den = 1 then some q.num else none
  | _ => none

/-- Field access on a normalized record, with the `to_dataframe` guarantee
that every canonical column exists (missing means null). -/
def lookupField (nr : List (String × Val)) (f : String) : Val :=
  match nr.lookup f with
  | some v => v
  | none => Val.vnull

/-- One typed row built from one normalized record (the column-wise numeric
and time coercions of `to_dataframe`). -/
def buildRow (nr : List (String × Val)) : Row :=
  { event_id := lookupField nr "event_id"
    time := toTime (lookupField nr "time")
    latitude := toNum (lookupField nr "latitude")
    longitude := toNum (lookupField nr "longitude")
    depth_km := toNum (lookupField nr "depth_km")
    magnitude := toNum (lookupField nr "magnitude")
    mag_type := lookupField nr "mag_type"
    location := lookupField nr "location"
    province := lookupField nr "province"
    district := lookupField nr "district"
    country := lookupField nr "country"
    neighborhood := lookupField nr "neighborhood"
    rms := toNum (lookupField nr "rms")
    is_event_update := lookupField nr "is_event_update"
    last_update_time := lookupField nr "last_update_time"
    energy_J := none
    event_count := none }

/-- The table-building core of `to_dataframe`: normalize each raw record and
coerce columns. -/
def buildTable (records : List RawRecord) : Table :=
  { energyCol := none
    rows := records.map (fun r => buildRow (normalizeRecord r)) }

/-- `filter_by_date`: keep rows with `time` in `[start, end]` (inclusive,
Istanbul); a NaT time never satisfies a bound comparison. -/
def filterByDate (t : Table) (start stop : Option ℤ) : Table :=
  let r1 :=
    match start with
    | some s => t.rows.filter (fun r =>
        match r.time with
        | some tm => decide (s ≤ tm)
        | none => false)
    | none => t.rows
  let r2 :=
    match stop with
    | some e => r1.filter (fun r =>
        match r.time with
        | some tm => decide (tm ≤ e)
        | none => false)
    | none => r1
  { t with rows := r2 }

/-- `filter_by_magnitude`: keep rows with magnitude in `[min_mag, max_mag]`;
a NaN magnitude never satisfies a bound comparison. -/
def filterByMagnitude (t : Table) (min_mag max_mag : Option ℚ) : Table :=
  let r1 :=
    match min_mag with
    | some lo => t.rows.filter (fun r =>
        match r.magnitude with
        | some m => decide (lo ≤ m)
        | none => false)
    | none => t.rows
  let r2 :=
    match max_mag with
    | some hi => r1.filter (fun r =>
        match r.magnitude with
        | some m => decide (m ≤ hi)
        | none => false)
    | none => r1
  { t with rows := r2 }

/-- `filter_by_depth`: same pattern over `depth_km`. -/
def filterByDepth (t : Table) (min_depth_km max_depth_km : Option ℚ) : Table :=
  let r1 :=
    match min_depth_km with
    | some lo => t.rows.filter (fun r =>
        match r.depth_km with
        | some d => decide (lo ≤ d)
        | none => false)
    | none => t.rows
  let r2 :=
    match max_depth_km with
    | some hi => r1.filter (fun r =>
        match r.depth_km with
        | some d => decide (d ≤ hi)
        | none => false)
    | none => r1
  { t with rows := r2 }

/-- `astype("string")` on one object cell: stringify non-null scalars,
null becomes missing. -/
def valToString : Val → Option String
  | Val.vstr s => some s
  | Val.vnum q => some (toString q)
  | Val.vbool b => some (if b then "True" else "False")
  | Val.vnull => none

/-- `filter_by_mag_type`: keep rows whose `mag_type` is in `allowed`,
case-insensitively by default; nulls never match. -/
def filterByMagType (t : Table) (allowed : List String) (case_insensitive : Bool) : Table :=
  if case_insensitive then
    let aset := allowed.map String.toLower
    { t with rows := t.rows.filter (fun r =>
        match valToString r.mag_type with
        | some s => aset.contains s.toLower
        | none => false) }
  else
    { t with rows := t.rows.filter (fun r =>
        match valToString r.mag_type with
        | some s => allowed.contains s
        | none => false) }

/-- `E[J] = 10 ** (a + b * M)`, float arithmetic idealized as exact reals. -/
noncomputable def energyOf (a b m : ℚ) : ℝ :=
  (10 : ℝ) ^ (((a + b * m : ℚ) : ℝ))

/-- `convert_energy`: per row, energy of the magnitude (NaN magnitude gives
NaN energy), written to `out_col`, overwriting it if already present; rows
and the magnitude column are untouched. -/
noncomputable def convertEnergy (t : Table) (a b : ℚ) (out_col : String) : Table :=
  { energyCol := some out_col
    rows := t.rows.map (fun r =>
      { r with energy_J := r.magnitude.map (fun m => energyOf a b m) }) }

/-! ### Daily aggregation -/

/-- `dt.floor("D")` in the reference timezone, as a day index. -/
def dayOf (tm : ℤ) : ℤ := Int.fdiv tm 1440

/-- The `__day` key of a row (`none` is NaT: unparsable or missing time). -/
def rowDay (r : Row) : Option ℤ := r.time.map dayOf

/-- The optional date window of `aggregate_daily`: `df[df["__day"] >= s]`
then `df[df["__day"] <= e]`, bounds day-floored; NaT never satisfies a
bound comparison. -/
def windowRows (rows : List Row) (start stop : Option ℤ) : List Row :=
  let r1 :=
    match start with
    | some s => rows.filter (fun r =>
        match rowDay r with
        | some d => decide (dayOf s ≤ d)
        | none => false)
    | none => rows
  match stop with
  | some e => r1.filter (fun r =>
      match rowDay r with
      | some d => decide (d ≤ dayOf e)
      | none => false)
  | none => r1

/-- Insert a day key into a strictly sorted list of day keys, keeping it
strictly sorted (no duplicates). -/
def insertSorted (d : ℤ) : List ℤ → List ℤ
  | [] => [d]
  | x :: xs =>
    if d < x then d :: x :: xs
    else if d = x then x :: xs
    else x :: insertSorted d xs

/-- The groupby keys: the distinct `__day` values of the rows, ascending
(pandas `groupby` sorts group keys; NaT keys are dropped). -/
def dayKeys (rows : List Row) : List ℤ :=
  (rows.filterMap rowDay).foldr insertSorted []

/-- The group of a day key: the rows of that calendar day, in original
order. -/
def rowsOfDay (rows : List Row) (d : ℤ) : List Row :=
  rows.filter (fun r => decide (rowDay r = some d))

/-- `count` on the `event_id` column of a group: number of non-null
event ids. -/
def countIds (rows : List Row) : ℕ :=
  rows.countP (fun r => decide (r.event_id ≠ Val.vnull))

/-- `SeriesGroupBy.idxmax` followed by `.loc`, on the magnitude column of
one group: the first row attaining the maximum non-null magnitude, `none`
when every magnitude of the group is null. -/
def argMaxMag (rows : List Row) : Option Row :=
  match (rows.filterMap (fun r => r.magnitude)).max? with
  | none => none
  | some m => rows.find? (fun r => decide (r.magnitude = some m))

/-- The `daily_max_mag` reduction: per day, the stable arg-max row with its
time normalized to day 00:00 and `event_count` attached
(`transform("count")` on `event_id`: non-null ids). A day group whose
magnitudes are all null makes pandas `idxmax`/`loc` raise. -/
def reduceMaxMag (wrows : List Row) : Except String (List Row) :=
  (dayKeys wrows).mapM (fun d =>
    match argMaxMag (rowsOfDay wrows d) with
    | some r => Except.ok
        { r with time := some (1440 * d)
                 event_count := some (countIds (rowsOfDay wrows d)) }
    | none => Except.error "idxmax of an all-NA group")

/-- `sub = df[df["magnitude"] >= float(threshold)]`: the rows meeting the
threshold (a NaN magnitude never does). -/
def thresholdSub (rows : List Row) (th : ℚ) : List Row :=
  rows.filter (fun r =>
    match r.magnitude with
    | some m => decide (th ≤ m)
    | none => false)

/-- The `daily_mag_threshold` reduction: restrict to rows with
`magnitude >= threshold`, arg-max per day over the restriction, but
`event_count` is `.size()` of the full (windowed) day group: all rows of
that day. -/
def reduceThreshold (wrows : List Row) (th : ℚ) : Except String (List Row) :=
  let sub := thresholdSub wrows th
  if sub.isEmpty then Except.ok []
  else
    (dayKeys sub).mapM (fun d =>
      match argMaxMag (rowsOfDay sub d) with
      | some r => Except.ok
          { r with time := some (1440 * d)
                   event_count := some ((rowsOfDay wrows d).length) }
      | none => Except.error "idxmax of an all-NA group")

/-- `_ensure_energy` on the windowed rows: compute the energy column with
the default constants a=1.44, b=5.24 when it is absent. -/
noncomputable def ensureEnergyRows (hasCol : Bool) (rows : List Row) : List Row :=
  if hasCol then rows
  else rows.map (fun r =>
    { r with energy_J := r.magnitude.map (fun m => energyOf (1.44 : ℚ) (5.24 : ℚ) m) })

/-- The `daily_energy_sum` / `daily_energy_max` reduction: per day,
`energy_J` is the sum (skipping nulls, 0.0 for an all-null day) or the max
(null for an all-null day) of the group's energies, `event_count` the count
of non-null event ids, `magnitude` the max non-null magnitude; all other
columns are dropped (modelled as null cells) and `time` is the day 00:00. -/
noncomputable def reduceEnergy (isSum : Bool) (rows : List Row) : List Row :=
  (dayKeys rows).map (fun d =>
    let grp := rowsOfDay rows d
    let es := grp.filterMap (fun r => r.energy_J)
    { event_id := Val.vnull
      time := some (1440 * d)
      latitude := none
      longitude := none
      depth_km := none
      magnitude := (grp.filterMap (fun r => r.magnitude)).max?
      mag_type := Val.vnull
      location := Val.vnull
      province := Val.vnull
      district := Val.vnull
      country := Val.vnull
      neighborhood := Val.vnull
      rms := none
      is_event_update := Val.vnull
      last_update_time := Val.vnull
      energy_J := if isSum then some es.sum else es.max?
      event_count := some (countIds grp) })

/-- The mode dispatch of `aggregate_daily` (the assignment of `result`),
acting on the windowed rows. Configuration errors (missing threshold,
unknown mode) and the all-NA `idxmax` failure are `Except.error`. -/
noncomputable def aggregateCore (t : Table) (mode : String) (threshold : Option ℚ)
    (energy_col : String) (wrows : List Row) : Except String Table :=
  if mode = "daily_max_mag" then
    (reduceMaxMag wrows).map (fun rs => { energyCol := t.energyCol, rows := rs })
  else if mode = "daily_mag_threshold" then
    match threshold with
    | none => Except.error "threshold must be provided for daily_mag_threshold"
    | some th =>
      (reduceThreshold wrows th).map (fun rs => { energyCol := t.energyCol, rows := rs })
  else if mode = "daily_energy_sum" ∨ mode = "daily_energy_max" then
    Except.ok
      { energyCol := some "energy_J"
        rows := reduceEnergy (mode = "daily_energy_sum")
          (ensureEnergyRows (decide (t.energyCol = some energy_col)) wrows) }
  else Except.error ("Unknown mode: " ++ mode)

/-- `pd.date_range(start_day, end_day, freq="D")` as day indexes (empty when
the end precedes the start). -/
def rangeDays (a b : ℤ) : List ℤ :=
  (List.range (b + 1 - a).toNat).map (fun (i : ℕ) => a + (i : ℤ))

/-- The effective gap-filling bounds: explicit bounds are day-floored;
defaults are the min/max day present in the windowed rows, "now" floored to
day when there are no rows at all. A non-empty frame whose times are all
NaT makes `pd.date_range` raise. -/
def fillBounds (wrows : List Row) (start stop : Option ℤ) (now : ℤ) :
    Except String (ℤ × ℤ) :=
  let sdE : Except String ℤ :=
    match start with
    | some s => Except.ok (dayOf s)
    | none =>
      if wrows.isEmpty then Except.ok (dayOf now)
      else
        match (wrows.filterMap rowDay).min? with
        | some m => Except.ok m
        | none => Except.error "cannot generate a date range from NaT"
  match sdE with
  | Except.error msg => Except.error msg
  | Except.ok sd =>
    match stop with
    | some e => Except.ok (sd, dayOf e)
    | none =>
      if wrows.isEmpty then Except.ok (sd, sd)
      else
        match (wrows.filterMap rowDay).max? with
        | some m => Except.ok (sd, m)
        | none => Except.error "cannot generate a date range from NaT"

/-- The empty-day defaults of gap filling: time = day 00:00,
`energy_J = 0.0` only when an `energy_J` column is part of the result,
`event_count = 0`, everything else null. -/
def emptyDayRow (hasEJ : Bool) (d : ℤ) : Row :=
  { event_id := Val.vnull
    time := some (1440 * d)
    latitude := none
    longitude := none
    depth_km := none
    magnitude := none
    mag_type := Val.vnull
    location := Val.vnull
    province := Val.vnull
    district := Val.vnull
    country := Val.vnull
    neighborhood := Val.vnull
    rms := none
    is_event_update := Val.vnull
    last_update_time := Val.vnull
    energy_J := if hasEJ then some 0 else none
    event_count := some 0 }

/-- The row `reindex` puts at day `d`: the existing row whose time is that
day's 00:00, run through the `fillna` defaults (`fillna` also zeroes a null
energy cell of an existing row, and `event_count` is re-cast to int), or a
fresh empty-day row. -/
def fillCell (hasEJ : Bool) (rows : List Row) (d : ℤ) : Row :=
  match rows.find? (fun r => decide (r.time = some (1440 * d))) with
  | some r =>
    { r with energy_J := if hasEJ then some (r.energy_J.getD 0) else r.energy_J
             event_count := some (r.event_count.getD 0) }
  | none => emptyDayRow hasEJ d

/-- `set_index("time").reindex(full_idx)` followed by the empty-day default
fills: one row per calendar day of the range. -/
def fillDays (hasEJ : Bool) (a b : ℤ) (rows : List Row) : List Row :=
  (rangeDays a b).map (fillCell hasEJ rows)

/-- `aggregate_daily` on the current table: mode `"all_events"` is a no-op
passthrough; otherwise window, reduce per mode, and optionally gap-fill. -/
noncomputable def aggregateDaily (t : Table) (mode : String) (threshold : Option ℚ)
    (energy_col : String) (fill_empty_days : Bool) (start stop : Option ℤ)
    (now : ℤ) : Except String Table :=
  if mode = "all_events" then Except.ok t
  else
    match aggregateCore t mode threshold energy_col (windowRows t.rows start stop) with
    | Except.error msg => Except.error msg
    | Except.ok res =>
      if fill_empty_days then
        match fillBounds (windowRows t.rows start stop) start stop now with
        | Except.error msg => Except.error msg
        | Except.ok (sd, ed) =>
          Except.ok
            { energyCol := res.energyCol
              rows := fillDays (decide (res.energyCol = some "energy_J")) sd ed res.rows }
      else Except.ok res

/-! ### The dataset object (memoized build, single mutable current view) -/

/-- `EarthquakeDataset`: the raw record list (never mutated) plus the lazily
built, memoized current DataFrame view. -/
structure DS where
  raw : List RawRecord
  cache : Option Table

/-- `to_dataframe`: return the cached table, building and caching it from
the raw records on first access. -/
def DS.toDataframe (ds : DS) : Table × DS :=
  match ds.cache with
  | some t => (t, ds)
  | none =>
    let t := buildTable ds.raw
    (t, { ds with cache := some t })

/-- The dataset's current table view (what any chained operation would see). -/
def DS.current (ds : DS) : Table := ds.toDataframe.1

/-- `aggregate_daily` as a method: `all_events` returns self before even
building; otherwise the result table replaces the current view on success,
and a raised error leaves the view as it was (only the lazy build cache may
have been populated). -/
noncomputable def DS.aggregateDaily (ds : DS) (mode : String) (threshold : Option ℚ)
    (energy_col : String) (fill_empty_days : Bool) (start stop : Option ℤ)
    (now : ℤ) : DS × Except String Unit :=
  if mode = "all_events" then (ds, Except.ok ())
  else
    let p := ds.toDataframe
    match AfadQuake.aggregateDaily p.1 mode threshold energy_col fill_empty_days start stop now with
    | Except.error msg => (p.2, Except.error msg)
    | Except.ok t2 => ({ p.2 with cache := some t2 }, Except.ok ())

/-! ### Shared lemmas -/

lemma insertSorted_cons (d x : ℤ) (xs : List ℤ) :
    insertSorted d (x :: xs) =
      if d < x then d :: x :: xs
      else if d = x then x :: xs
      else x :: insertSorted d xs := rfl

lemma mem_insertSorted {a d : ℤ} : ∀ {l : List ℤ}, a ∈ insertSorted d l ↔ a = d ∨ a ∈ l := by
  intro l
  induction l with
  | nil => simp [insertSorted]
  | cons x xs ih =>
    rw [insertSorted_cons]
    by_cases h1 : d < x
    · rw [if_pos h1]
      simp
    · rw [if_neg h1]
      by_cases h2 : d = x
      · subst h2
        rw [if_pos rfl]
        simp only [List.mem_cons]
        tauto
      · rw [if_neg h2]
        simp only [List.mem_cons, ih]
        tauto

lemma pairwise_insertSorted {d : ℤ} :
    ∀ {l : List ℤ}, l.Pairwise (· < ·) → (insertSorted d l).Pairwise (· < ·) := by
  intro l
  induction l with
  | nil => intro _; simp [insertSorted]
  | cons x xs ih =>
    intro hp
    rcases List.pairwise_cons.mp hp with ⟨hx, hxs⟩
    rw [insertSorted_cons]
    by_cases h1 : d < x
    · rw [if_pos h1]
      refine List.pairwise_cons.mpr ⟨?_, hp⟩
      intro y hy
      rcases List.mem_cons.mp hy with rfl | hy2
      · exact h1
      · exact lt_trans h1 (hx y hy2)
    · rw [if_neg h1]
      by_cases h2 : d = x
      · subst h2
        rw [if_pos rfl]
        exact hp
      · rw [if_neg h2]
        refine List.pairwise_cons.mpr ⟨?_, ih hxs⟩
        intro y hy
        rcases mem_insertSorted.mp hy with rfl | hy2
        · omega
        · exact hx y hy2

lemma pairwise_foldr_insertSorted :
    ∀ (l : List ℤ), (l.foldr insertSorted []).Pairwise (· < ·) := by
  intro l
  induction l with
  | nil => simp
  | cons x xs ih => exact pairwise_insertSorted ih

lemma mem_foldr_insertSorted {a : ℤ} :
    ∀ {l : List ℤ}, a ∈ l.foldr insertSorted [] ↔ a ∈ l := by
  intro l
  induction l with
  | nil => simp
  | cons x xs ih =>
    simp only [List.foldr_cons, mem_insertSorted, ih, List.mem_cons]

lemma dayKeys_pairwise (rows : List Row) : (dayKeys rows).Pairwise (· < ·) :=
  pairwise_foldr_insertSorted _

lemma mem_dayKeys {rows : List Row} {d : ℤ} :
    d ∈ dayKeys rows ↔ ∃ r ∈ rows, rowDay r = some d := by
  unfold dayKeys
  rw [mem_foldr_insertSorted, List.mem_filterMap]

lemma mem_rangeDays {a b d : ℤ} : d ∈ rangeDays a b ↔ a ≤ d ∧ d ≤ b := by
  unfold rangeDays
  simp only [List.mem_map, List.mem_range]
  constructor
  · rintro ⟨i, hi, rfl⟩
    omega
  · intro h
    exact ⟨(d - a).toNat, by omega, by omega⟩

lemma rangeDays_pairwise {a b : ℤ} : (rangeDays a b).Pairwise (· < ·) := by
  unfold rangeDays
  refine List.Pairwise.map _ ?_ (List.pairwise_lt_range _)
  intro x y h
  have hxy : (x : ℤ) < y := by exact_mod_cast h
  omega

lemma dayOf_mul (d : ℤ) : dayOf (1440 * d) = d :=
  Int.mul_fdiv_cancel_left d (by norm_num)

lemma maxQ_eq_some {l : List ℚ} {m : ℚ} :
    l.max? = some m ↔ m ∈ l ∧ ∀ b ∈ l, b ≤ m := by
  haveI : Std.Antisymm (fun (a b : ℚ) => a ≤ b) := ⟨@fun x y h1 h2 => le_antisymm h1 h2⟩
  exact List.max?_eq_some_iff le_refl max_choice (fun _ _ _ => max_le_iff)

lemma argMaxMag_eq_some {rows : List Row} {r : Row} (h : argMaxMag rows = some r) :
    ∃ m, r.magnitude = some m ∧ r ∈ rows ∧
      (∀ r' ∈ rows, ∀ m', r'.magnitude = some m' → m' ≤ m) ∧
      ∃ l₁ l₂, rows = l₁ ++ r :: l₂ ∧ ∀ r' ∈ l₁, r'.magnitude ≠ some m := by
  unfold argMaxMag at h
  cases hmax : (rows.filterMap (fun r => r.magnitude)).max? with
  | none => rw [hmax] at h; cases h
  | some m =>
    rw [hmax] at h
    rcases List.find?_eq_some.mp h with ⟨hp, l₁, l₂, heq, hpre⟩
    refine ⟨m, of_decide_eq_true hp, List.mem_of_find?_eq_some h, ?_, l₁, l₂, heq, ?_⟩
    · intro r' hr' m' hm'
      exact (maxQ_eq_some.mp hmax).2 m' (List.mem_filterMap.mpr ⟨r', hr', hm'⟩)
    · intro r' hr'
      simpa using hpre r' hr'

lemma argMaxMag_isSome {rows : List Row} (h : ∃ r ∈ rows, r.magnitude ≠ none) :
    ∃ r', argMaxMag rows = some r' := by
  rcases h with ⟨r, hr, hmag⟩
  cases hm : r.magnitude with
  | none => exact absurd hm hmag
  | some m =>
    have hmem : m ∈ rows.filterMap (fun r => r.magnitude) :=
      List.mem_filterMap.mpr ⟨r, hr, hm⟩
    cases hmax : (rows.filterMap (fun r => r.magnitude)).max? with
    | none =>
      rw [List.max?_eq_none_iff] at hmax
      rw [hmax] at hmem
      cases hmem
    | some mx =>
      unfold argMaxMag
      rw [hmax]
      rcases List.mem_filterMap.mp (maxQ_eq_some.mp hmax).1 with ⟨r₀, hr₀, hmag₀⟩
      cases hfind : rows.find? (fun r => decide (r.magnitude = some mx)) with
      | none =>
        rw [List.find?_eq_none] at hfind
        have := hfind r₀ hr₀
        simp [hmag₀] at this
      | some r' => exact ⟨r', hfind⟩

lemma mapM_except_eq_ok {ε α β : Type} {f : α → Except ε β} :
    ∀ {l : List α} {rs : List β},
      l.mapM f = Except.ok rs ↔ List.Forall₂ (fun a b => f a = Except.ok b) l rs := by
  intro l
  induction l with
  | nil =>
    intro rs
    constructor
    · intro h
      have h2 : Except.ok ([] : List β) = Except.ok rs := h
      cases h2
      exact List.Forall₂.nil
    · intro h
      cases h
      rfl
  | cons a l ih =>
    intro rs
    rw [List.mapM_cons]
    constructor
    · intro h
      cases hfa : f a with
      | error msg =>
        rw [hfa] at h
        exact absurd h (by intro hh; cases hh)
      | ok b =>
        rw [hfa] at h
        cases hml : l.mapM f with
        | error msg =>
          rw [hml] at h
          exact absurd h (by intro hh; cases hh)
        | ok bs =>
          rw [hml] at h
          have h2 : Except.ok (b :: bs) = Except.ok rs := h
          cases h2
          exact List.Forall₂.cons hfa (ih.mp hml)
    · intro h
      cases h with
      | cons hab hl =>
        rw [hab, ih.mpr hl]
        rfl

lemma forall₂_exists_of_forall {α β : Type} {ε : Type} {f : α → Except ε β} :
    ∀ {l : List α}, (∀ a ∈ l, ∃ b, f a = Except.ok b) →
      ∃ rs, List.Forall₂ (fun a b => f a = Except.ok b) l rs := by
  intro l
  induction l with
  | nil => intro _; exact ⟨[], List.Forall₂.nil⟩
  | cons a l ih =>
    intro h
    rcases h a (List.mem_cons_self a l) with ⟨b, hb⟩
    rcases ih (fun a' ha' => h a' (List.mem_cons_of_mem a ha')) with ⟨rs, hrs⟩
    exact ⟨b :: rs, List.Forall₂.cons hb hrs⟩

lemma forall₂_map_eq {α β γ : Type _} {P : α → β → Prop} {u : β → γ} {v : α → γ} :
    ∀ {l : List α} {rs : List β}, List.Forall₂ P l rs →
      (∀ a b, P a b → u b = v a) → rs.map u = l.map v := by
  intro l rs h
  induction h with
  | nil => intro _; rfl
  | cons hab _ ih =>
    intro huv
    simp only [List.map_cons, ih huv, huv _ _ hab]

lemma forall₂_mem_right {α β : Type _} {P : α → β → Prop} {b : β} :
    ∀ {l : List α} {rs : List β}, List.Forall₂ P l rs → b ∈ rs → ∃ a ∈ l, P a b := by
  intro l rs h
  induction h with
  | nil => intro hb; cases hb
  | cons hab htl ih =>
    intro hb
    rcases List.mem_cons.mp hb with rfl | hb2
    · exact ⟨_, List.mem_cons_self _ _, hab⟩
    · rcases ih hb2 with ⟨a, ha, hP⟩
      exact ⟨a, List.mem_cons_of_mem _ ha, hP⟩

lemma windowRows_none_none (rows : List Row) : windowRows rows none none = rows := rfl

lemma mem_windowRows {rows : List Row} {s e : Option ℤ} {r : Row}
    (h : r ∈ windowRows rows s e) : r ∈ rows := by
  unfold windowRows at h
  cases s <;> cases e <;> simp only [List.mem_filter] at h <;> tauto

lemma windowRows_day_bounds {rows : List Row} {s e : ℤ} {r : Row} {d : ℤ}
    (h : r ∈ windowRows rows (some s) (some e)) (hd : rowDay r = some d) :
    dayOf s ≤ d ∧ d ≤ dayOf e := by
  unfold windowRows at h
  simp only [List.mem_filter] at h
  rcases h with ⟨⟨_, h1⟩, h2⟩
  rw [hd] at h1 h2
  exact ⟨of_decide_eq_true h1, of_decide_eq_true h2⟩

lemma mem_rowsOfDay {rows : List Row} {d : ℤ} {r : Row} :
    r ∈ rowsOfDay rows d ↔ r ∈ rows ∧ rowDay r = some d := by
  unfold rowsOfDay
  rw [List.mem_filter]
  simp

lemma dayKeys_ensureEnergyRows (b : Bool) (rows : List Row) :
    dayKeys (ensureEnergyRows b rows) = dayKeys rows := by
  unfold ensureEnergyRows
  cases b with
  | true => rfl
  | false =>
    simp only [Bool.false_eq_true, if_false]
    unfold dayKeys
    rw [List.filterMap_map]
    rfl

lemma mem_thresholdSub {rows : List Row} {th : ℚ} {r : Row} :
    r ∈ thresholdSub rows th ↔ r ∈ rows ∧ ∃ m, r.magnitude = some m ∧ th ≤ m := by
  unfold thresholdSub
  rw [List.mem_filter]
  constructor
  · rintro ⟨h1, h2⟩
    cases hm : r.magnitude with
    | none => rw [hm] at h2; cases h2
    | some m =>
      rw [hm] at h2
      exact ⟨h1, m, rfl, of_decide_eq_true h2⟩
  · rintro ⟨h1, m, hm, hth⟩
    refine ⟨h1, ?_⟩
    rw [hm]
    exact decide_eq_true hth

lemma filterMap_eq_map_of_some {α β : Type _} {f : α → Option β} {u : α → β} :
    ∀ {l : List α}, (∀ a ∈ l, f a = some (u a)) → l.filterMap f = l.map u := by
  intro l
  induction l with
  | nil => intro _; rfl
  | cons a l ih =>
    intro h
    rw [List.filterMap_cons, h a (List.mem_cons_self a l), List.map_cons,
      ih (fun x hx => h x (List.mem_cons_of_mem a hx))]

lemma fillCell_time (hasEJ : Bool) (rows : List Row) (d : ℤ) :
    (fillCell hasEJ rows d).time = some (1440 * d) := by
  unfold fillCell
  cases hf : rows.find? (fun r => decide (r.time = some (1440 * d))) with
  | none => rfl
  | some r =>
    have hp := List.find?_some hf
    exact of_decide_eq_true hp

lemma fillCell_rowDay (hasEJ : Bool) (rows : List Row) (d : ℤ) :
    rowDay (fillCell hasEJ rows d) = some d := by
  unfold rowDay
  rw [fillCell_time]
  simp [dayOf_mul]

lemma fillCell_of_not_found {hasEJ : Bool} {rows : List Row} {d : ℤ}
    (h : ∀ r ∈ rows, r.time ≠ some (1440 * d)) :
    fillCell hasEJ rows d = emptyDayRow hasEJ d := by
  unfold fillCell
  have hf : rows.find? (fun r => decide (r.time = some (1440 * d))) = none :=
    List.find?_eq_none.mpr (fun x hx => by simpa using h x hx)
  rw [hf]

lemma fillDays_map_time (hasEJ : Bool) (a b : ℤ) (rows : List Row) :
    (fillDays hasEJ a b rows).map (fun r => r.time) =
      (rangeDays a b).map (fun d => some (1440 * d)) := by
  unfold fillDays
  rw [List.map_map]
  exact List.map_congr_left (fun d _ => fillCell_time hasEJ rows d)

lemma fillDays_days (hasEJ : Bool) (a b : ℤ) (rows : List Row) :
    (fillDays hasEJ a b rows).filterMap rowDay = rangeDays a b := by
  unfold fillDays
  rw [List.filterMap_map]
  have h : (rangeDays a b).filterMap (rowDay ∘ fillCell hasEJ rows) =
      (rangeDays a b).map id :=
    filterMap_eq_map_of_some (fun d _ => fillCell_rowDay hasEJ rows d)
  rw [h, List.map_id]

lemma toDataframe_stable (ds : DS) :
    ds.toDataframe.2.toDataframe = (ds.toDataframe.1, ds.toDataframe.2) := by
  cases h : ds.cache with
  | some t => simp [DS.toDataframe, h]
  | none => simp [DS.toDataframe, h]

/-! ### The concrete tables used by counterexamples and witnesses -/

/-- A single event: 10:00 of day 0 (minute 600), magnitude 5.0, null
event id. -/
def nullIdRow : Row :=
  { event_id := Val.vnull
    time := some 600
    latitude := none
    longitude := none
    depth_km := none
    magnitude := some 5
    mag_type := Val.vnull
    location := Val.vnull
    province := Val.vnull
    district := Val.vnull
    country := Val.vnull
    neighborhood := Val.vnull
    rms := none
    is_event_update := Val.vnull
    last_update_time := Val.vnull
    energy_J := none
    event_count := none }

/-- A table holding exactly `nullIdRow`: its single day has one row, whose
event id is null. -/
def nullIdTable : Table := { energyCol := none, rows := [nullIdRow] }

/-- A single event with a null (unparsable) magnitude but a proper id. -/
def nullMagRow : Row := { nullIdRow with magnitude := none, event_id := Val.vstr "ev1" }

/-- A table whose single day consists only of null-magnitude rows. -/
def nullMagTable : Table := { energyCol := none, rows := [nullMagRow] }

/-- A well-formed one-event table (non-null id and magnitude). -/
def plainRow : Row := { nullIdRow with event_id := Val.vstr "ev0" }

/-- The well-formed one-event table, and a second row on the same day with a
smaller magnitude. -/
def plainTable : Table := { energyCol := none, rows := [plainRow, { nullMagRow with time := some 700 }] }

/-! ### Claims -/

/-- Claim C10: for every raw record list, building the table twice from the
same dataset yields structurally identical tables, and the second build
returns the memoized structure (the cached table, with the dataset state
unchanged) without re-deriving it from the raw records. -/
theorem build_idempotent_memoized (ds : DS) :
    ds.toDataframe.2.toDataframe.1 = ds.toDataframe.1 ∧
    ds.toDataframe.2.cache = some ds.toDataframe.1 ∧
    ds.toDataframe.2.toDataframe = (ds.toDataframe.1, ds.toDataframe.2) := by
  refine ⟨?_, ?_, toDataframe_stable ds⟩
  · rw [toDataframe_stable ds]
  · cases h : ds.cache with
    | some t => simp [DS.toDataframe, h]
    | none => simp [DS.toDataframe, h]

/-- Claim C9: normalization is total: for every input record, the output
contains every canonical field in schema order, each field resolved by the
first-match-wins alias list; a field whose aliases are all absent is null. -/
theorem normalize_total (r : RawRecord) :
    (normalizeRecord r).map Prod.fst = CANONICAL_FIELDS ∧
    (∀ f ns, (f, ns) ∈ ALIASES → (normalizeRecord r).lookup f = some (g r ns)) ∧
    (∀ ns, (∀ n ∈ ns, r.lookup n = none) → g r ns = Val.vnull) ∧
    (∀ ns₁ n ns₂ v, r.lookup n = some v → (∀ n' ∈ ns₁, r.lookup n' = none) →
      g r (ns₁ ++ n :: ns₂) = v) := by
  refine ⟨rfl, ?_, ?_, ?_⟩
  · intro f ns hmem
    fin_cases hmem <;> rfl
  · intro ns
    induction ns with
    | nil => intro _; rfl
    | cons n ns ih =>
      intro h
      have h1 : r.lookup n = none := h n (List.mem_cons_self n ns)
      show (match r.lookup n with
            | some v => v
            | none => g r ns) = Val.vnull
      rw [h1]
      exact ih (fun n' hn' => h n' (List.mem_cons_of_mem n hn'))
  · intro ns₁ n ns₂ v hv
    induction ns₁ with
    | nil =>
      intro _
      show (match r.lookup n with
            | some v => v
            | none => g r ns₂) = v
      rw [hv]
    | cons n' ns₁ ih =>
      intro h
      have h1 : r.lookup n' = none := h n' (List.mem_cons_self n' ns₁)
      show (match r.lookup n' with
            | some v => v
            | none => g r (ns₁ ++ n :: ns₂)) = v
      rw [h1]
      exact ih (fun x hx => h x (List.mem_cons_of_mem n' hx))

/-- Claim C9 witness: a record with zero recognized keys normalizes with
every canonical field present and null. -/
theorem normalize_total_witness :
    (normalizeRecord [("foo", Val.vnum 3)]).map Prod.fst = CANONICAL_FIELDS ∧
    g [("foo", Val.vnum 3)] ["magnitude", "mag"] = Val.vnull := by
  have h := normalize_total [("foo", Val.vnum 3)]
  exact ⟨h.1, h.2.2.1 ["magnitude", "mag"] (by decide)⟩

/-- Claim C4: `convert_energy` with default constants writes
`10 ^ (1.44 + 5.24 * M)` to the `energy_J` column for every row with
non-null magnitude M, null for a null magnitude; it never alters the
magnitude (or any other field) and never removes rows. -/
theorem convert_energy_spec (t : Table) :
    (convertEnergy t 1.44 5.24 "energy_J").energyCol = some "energy_J" ∧
    (convertEnergy t 1.44 5.24 "energy_J").rows.length = t.rows.length ∧
    ∀ i r, t.rows.get? i = some r →
      ∃ r', (convertEnergy t 1.44 5.24 "energy_J").rows.get? i = some r' ∧
        r'.magnitude = r.magnitude ∧
        (∀ m, r.magnitude = some m →
          r'.energy_J = some ((10 : ℝ) ^ (((1.44 + 5.24 * m : ℚ) : ℝ)))) ∧
        (r.magnitude = none → r'.energy_J = none) ∧
        r'.event_id = r.event_id ∧ r'.time = r.time ∧ r'.latitude = r.latitude ∧
        r'.longitude = r.longitude ∧ r'.depth_km = r.depth_km ∧ r'.rms = r.rms ∧
        r'.mag_type = r.mag_type ∧ r'.event_count = r.event_count := by
  refine ⟨rfl, by simp [convertEnergy], ?_⟩
  intro i r hr
  refine ⟨{ r with energy_J := r.magnitude.map (fun m => energyOf 1.44 5.24 m) }, ?_,
    rfl, ?_, ?_, rfl, rfl, rfl, rfl, rfl, rfl, rfl, rfl⟩
  · show ((t.rows.map _).get? i) = _
    rw [List.get?_map, hr]
    rfl
  · intro m hm
    rw [hm]
    rfl
  · intro hm
    rw [hm]
    rfl

/-- Claim C4 witness: the per-row conclusion at a concrete one-row table. -/
theorem convert_energy_spec_witness :
    ∃ r', (convertEnergy nullIdTable 1.44 5.24 "energy_J").rows.get? 0 = some r' ∧
      r'.magnitude = nullIdRow.magnitude ∧
      (∀ m, nullIdRow.magnitude = some m →
        r'.energy_J = some ((10 : ℝ) ^ (((1.44 + 5.24 * m : ℚ) : ℝ)))) ∧
      (nullIdRow.magnitude = none → r'.energy_J = none) ∧
      r'.event_id = nullIdRow.event_id ∧ r'.time = nullIdRow.time ∧
      r'.latitude = nullIdRow.latitude ∧ r'.longitude = nullIdRow.longitude ∧
      r'.depth_km = nullIdRow.depth_km ∧ r'.rms = nullIdRow.rms ∧
      r'.mag_type = nullIdRow.mag_type ∧ r'.event_count = nullIdRow.event_count :=
  (convert_energy_spec nullIdTable).2.2 0 nullIdRow rfl

/-- Claim C6: `daily_mag_threshold` without a threshold, or an unrecognized
mode string, makes `aggregate_daily` raise a configuration error, with the
dataset's current table unchanged (no partial result produced or stored;
only the lazy build cache may be populated). -/
theorem aggregate_config_error (ds : DS) (mode : String) (th : Option ℚ) (ec : String)
    (fill : Bool) (s e : Option ℤ) (now : ℤ)
    (h : (mode = "daily_mag_threshold" ∧ th = none) ∨
      mode ∉ ["all_events", "daily_max_mag", "daily_mag_threshold",
              "daily_energy_sum", "daily_energy_max"]) :
    (∃ msg, (DS.aggregateDaily ds mode th ec fill s e now).2 = Except.error msg) ∧
    (DS.aggregateDaily ds mode th ec fill s e now).1 = ds.toDataframe.2 ∧
    (DS.aggregateDaily ds mode th ec fill s e now).1.current = ds.current := by
  have hcore : ∀ t : Table, ∃ msg,
      aggregateCore t mode th ec (windowRows t.rows s e) = Except.error msg := by
    intro t
    rcases h with ⟨hm, hth⟩ | hm
    · subst hm
      subst hth
      refine ⟨"threshold must be provided for daily_mag_threshold", ?_⟩
      unfold aggregateCore
      rw [if_neg (by decide), if_pos rfl]
    · simp only [List.mem_cons, List.not_mem_nil, or_false, not_or] at hm
      obtain ⟨h0, h1, h2, h3, h4⟩ := hm
      refine ⟨"Unknown mode: " ++ mode, ?_⟩
      unfold aggregateCore
      rw [if_neg h1, if_neg h2, if_neg (by tauto)]
  have hmode0 : mode ≠ "all_events" := by
    rcases h with ⟨hm, _⟩ | hm
    · subst hm; decide
    · simp only [List.mem_cons, List.not_mem_nil, or_false, not_or] at hm
      exact hm.1
  have hagg : ∃ msg,
      aggregateDaily ds.toDataframe.1 mode th ec fill s e now = Except.error msg := by
    rcases hcore ds.toDataframe.1 with ⟨msg, hmsg⟩
    refine ⟨msg, ?_⟩
    unfold aggregateDaily
    rw [if_neg hmode0]
    simp only [hmsg]
  rcases hagg with ⟨msg, hmsg⟩
  have hds : DS.aggregateDaily ds mode th ec fill s e now =
      (ds.toDataframe.2, Except.error msg) := by
    unfold DS.aggregateDaily
    rw [if_neg hmode0]
    simp only [hmsg]
  rw [hds]
  refine ⟨⟨msg, rfl⟩, rfl, ?_⟩
  show ds.toDataframe.2.current = ds.current
  unfold DS.current
  rw [toDataframe_stable ds]

/-- Claim C8: the four filters commute pairwise (the same row set in either
order, here as list equality, which is stronger), and a row whose tested
field is null is excluded whenever a bound is given. -/
theorem filter_order_independent (t : Table) (mn mx dn dx : Option ℚ)
    (ds de : Option ℤ) (allowed : List String) (ci : Bool) :
    (filterByDepth (filterByMagnitude t mn mx) dn dx =
       filterByMagnitude (filterByDepth t dn dx) mn mx) ∧
    (filterByDate (filterByMagnitude t mn mx) ds de =
       filterByMagnitude (filterByDate t ds de) mn mx) ∧
    (filterByDate (filterByDepth t dn dx) ds de =
       filterByDepth (filterByDate t ds de) dn dx) ∧
    (filterByMagType (filterByMagnitude t mn mx) allowed ci =
       filterByMagnitude (filterByMagType t allowed ci) mn mx) ∧
    (filterByMagType (filterByDepth t dn dx) allowed ci =
       filterByDepth (filterByMagType t allowed ci) dn dx) ∧
    (filterByMagType (filterByDate t ds de) allowed ci =
       filterByDate (filterByMagType t allowed ci) ds de) ∧
    (∀ lo r, r ∈ (filterByMagnitude t (some lo) mx).rows → r.magnitude ≠ none) ∧
    (∀ hi r, r ∈ (filterByMagnitude t mn (some hi)).rows → r.magnitude ≠ none) ∧
    (∀ lo r, r ∈ (filterByDepth t (some lo) dx).rows → r.depth_km ≠ none) ∧
    (∀ hi r, r ∈ (filterByDepth t dn (some hi)).rows → r.depth_km ≠ none) := by
  refine ⟨?_, ?_, ?_, ?_, ?_, ?_, ?_, ?_, ?_, ?_⟩
  · cases mn <;> cases mx <;> cases dn <;> cases dx <;>
      simp [filterByMagnitude, filterByDepth, List.filter_filter,
        Bool.and_assoc, Bool.and_comm, Bool.and_left_comm]
  · cases mn <;> cases mx <;> cases ds <;> cases de <;>
      simp [filterByMagnitude, filterByDate, List.filter_filter,
        Bool.and_assoc, Bool.and_comm, Bool.and_left_comm]
  · cases dn <;> cases dx <;> cases ds <;> cases de <;>
      simp [filterByDepth, filterByDate, List.filter_filter,
        Bool.and_assoc, Bool.and_comm, Bool.and_left_comm]
  · cases mn <;> cases mx <;> cases ci <;>
      simp [filterByMagnitude, filterByMagType, List.filter_filter,
        Bool.and_assoc, Bool.and_comm, Bool.and_left_comm]
  · cases dn <;> cases dx <;> cases ci <;>
      simp [filterByDepth, filterByMagType, List.filter_filter,
        Bool.and_assoc, Bool.and_comm, Bool.and_left_comm]
  · cases ds <;> cases de <;> cases ci <;>
      simp [filterByDate, filterByMagType, List.filter_filter,
        Bool.and_assoc, Bool.and_comm, Bool.and_left_comm]
  · intro lo r hr hnull
    cases mx <;> simp only [filterByMagnitude] at hr <;>
      simp only [List.mem_filter, hnull] at hr <;> tauto
  · intro hi r hr hnull
    cases mn <;> simp only [filterByMagnitude] at hr <;>
      simp only [List.mem_filter, hnull] at hr <;> tauto
  · intro lo r hr hnull
    cases dx <;> simp only [filterByDepth] at hr <;>
      simp only [List.mem_filter, hnull] at hr <;> tauto
  · intro hi r hr hnull
    cases dn <;> simp only [filterByDepth] at hr <;>
      simp only [List.mem_filter, hnull] at hr <;> tauto

/-- Claim C8 witness: the magnitude/depth pair commutes on a concrete table
and the null-magnitude row kept by no-bound filtering is rejected once a
bound is given. -/
theorem filter_order_independent_witness :
    (filterByDepth (filterByMagnitude plainTable (some 1) none) none (some 70) =
       filterByMagnitude (filterByDepth plainTable none (some 70)) (some 1) none) ∧
    plainRow.magnitude ≠ none := by
  have h := filter_order_independent plainTable (some 1) none none (some 70)
    none none ["Mw"] true
  exact ⟨h.1, h.2.2.2.2.2.2.1 1 plainRow (List.Mem.head _)⟩

/-- Shared characterization of `daily_max_mag` (no window, no fill): when
every day group holds at least one non-null magnitude, aggregation succeeds
and the result rows correspond one-to-one, in day order, to the
per-day stable arg-max rows. -/
lemma daily_max_mag_core (t : Table) (now : ℤ)
    (H : ∀ d ∈ dayKeys t.rows, ∃ r ∈ rowsOfDay t.rows d, r.magnitude ≠ none) :
    ∃ rs, aggregateDaily t "daily_max_mag" none "energy_J" false none none now =
        Except.ok { energyCol := t.energyCol, rows := rs } ∧
      List.Forall₂ (fun d dr => ∃ r0, argMaxMag (rowsOfDay t.rows d) = some r0 ∧
          dr = { r0 with time := some (1440 * d),
                         event_count := some (countIds (rowsOfDay t.rows d)) })
        (dayKeys t.rows) rs := by
  have hex : ∀ d ∈ dayKeys t.rows, ∃ dr,
      (match argMaxMag (rowsOfDay t.rows d) with
       | some r => Except.ok
           ({ r with
              time := some (1440 * d)
              event_count := some (countIds (rowsOfDay t.rows d)) } : Row)
       | none => Except.error "idxmax of an all-NA group") = Except.ok dr := by
    intro d hd
    rcases argMaxMag_isSome (H d hd) with ⟨r0, hr0⟩
    exact ⟨_, by rw [hr0]⟩
  obtain ⟨rs, hrs⟩ := forall₂_exists_of_forall hex
  have hmapM : reduceMaxMag t.rows = Except.ok rs := mapM_except_eq_ok.mpr hrs
  have hcore : aggregateCore t "daily_max_mag" none "energy_J" (windowRows t.rows none none) =
      Except.ok { energyCol := t.energyCol, rows := rs } := by
    unfold aggregateCore
    rw [if_pos rfl]
    rw [show windowRows t.rows none none = t.rows from rfl, hmapM]
    rfl
  refine ⟨rs, ?_, ?_⟩
  · unfold aggregateDaily
    rw [if_neg (by decide)]
    simp only [hcore]
    rfl
  · refine List.Forall₂.imp ?_ hrs
    intro d dr h
    cases harg : argMaxMag (rowsOfDay t.rows d) with
    | none => rw [harg] at h; cases h
    | some r0 =>
      rw [harg] at h
      injection h with h2
      exact ⟨r0, rfl, h2.symm⟩

/-- Claim C1 (amended): for every input table whose day groups each contain
at least one non-null magnitude, `daily_max_mag` produces, per calendar day
with at least one row, exactly the row with maximum magnitude (ties broken
by original row order: first occurrence wins), with `event_count` equal to
the number of that day's rows with a non-null event id, and with the row's
time replaced by 00:00 of that day; the rows come in ascending day order. -/
theorem daily_max_mag_spec (t : Table) (now : ℤ)
    (H : ∀ d ∈ dayKeys t.rows, ∃ r ∈ rowsOfDay t.rows d, r.magnitude ≠ none) :
    ∃ out, aggregateDaily t "daily_max_mag" none "energy_J" false none none now =
        Except.ok out ∧
      out.energyCol = t.energyCol ∧
      out.rows.map (fun r => r.time) = (dayKeys t.rows).map (fun d => some (1440 * d)) ∧
      ∀ d ∈ dayKeys t.rows, ∀ dr ∈ out.rows, dr.time = some (1440 * d) →
        ∃ r m, r ∈ rowsOfDay t.rows d ∧ r.magnitude = some m ∧
          (∀ r' ∈ rowsOfDay t.rows d, ∀ m', r'.magnitude = some m' → m' ≤ m) ∧
          (∃ l₁ l₂, rowsOfDay t.rows d = l₁ ++ r :: l₂ ∧ ∀ r' ∈ l₁, r'.magnitude ≠ some m) ∧
          dr = { r with time := some (1440 * d),
                        event_count := some (countIds (rowsOfDay t.rows d)) } := by
  obtain ⟨rs, hok, hfa⟩ := daily_max_mag_core t now H
  refine ⟨_, hok, rfl, ?_, ?_⟩
  · refine forall₂_map_eq hfa ?_
    intro d dr hd
    rcases hd with ⟨r0, _, rfl⟩
    rfl
  · intro d hd dr hdr htime
    rcases forall₂_mem_right hfa hdr with ⟨d', hd', r0, harg, rfl⟩
    have hdd : d' = d := by
      injection htime with h2
      omega
    subst hdd
    rcases argMaxMag_eq_some harg with ⟨m, hm, hmem, hmax, l₁, l₂, heq, hfirst⟩
    exact ⟨r0, m, hmem, hm, hmax, ⟨l₁, l₂, heq, hfirst⟩, rfl⟩

/-- Claim C1 witness: the amended claim at a concrete two-row table. -/
theorem daily_max_mag_spec_witness :
    ∃ out, aggregateDaily plainTable "daily_max_mag" none "energy_J" false none none 0 =
        Except.ok out ∧
      out.energyCol = plainTable.energyCol ∧
      out.rows.map (fun r => r.time) =
        (dayKeys plainTable.rows).map (fun d => some (1440 * d)) ∧
      ∀ d ∈ dayKeys plainTable.rows, ∀ dr ∈ out.rows, dr.time = some (1440 * d) →
        ∃ r m, r ∈ rowsOfDay plainTable.rows d ∧ r.magnitude = some m ∧
          (∀ r' ∈ rowsOfDay plainTable.rows d, ∀ m', r'.magnitude = some m' → m' ≤ m) ∧
          (∃ l₁ l₂, rowsOfDay plainTable.rows d = l₁ ++ r :: l₂ ∧
            ∀ r' ∈ l₁, r'.magnitude ≠ some m) ∧
          dr = { r with time := some (1440 * d),
                        event_count := some (countIds (rowsOfDay plainTable.rows d)) } :=
  daily_max_mag_spec plainTable 0 (by decide)

/-- Claim C1 counterexample: a day holding exactly one row whose event id is
null gets `event_count = 0`, not 1: `event_count` is a pandas `count` of the
`event_id` column, not the number of rows of the day. -/
theorem daily_max_mag_count_cex :
    (aggregateDaily nullIdTable "daily_max_mag" none "energy_J" false none none 0).map
        (fun out => out.rows.map (fun r => r.event_count)) = Except.ok [some 0] ∧
    (rowsOfDay nullIdTable.rows 0).length = 1 := ⟨rfl, rfl⟩

/-- Claim C7 (amended): null-magnitude rows do not make `daily_max_mag`
raise provided each day group has at least one non-null magnitude (an
all-null day raises through pandas `idxmax`); they are never the selected
row, and the attached count ranges over all rows of the day (counting those
with non-null event id, regardless of magnitude). -/
theorem null_magnitude_spec (t : Table) (now : ℤ)
    (H : ∀ d ∈ dayKeys t.rows, ∃ r ∈ rowsOfDay t.rows d, r.magnitude ≠ none) :
    ∃ out, aggregateDaily t "daily_max_mag" none "energy_J" false none none now =
        Except.ok out ∧
      (∀ dr ∈ out.rows, dr.magnitude ≠ none) ∧
      (∀ dr ∈ out.rows, ∀ d, dr.time = some (1440 * d) →
        dr.event_count =
          some ((rowsOfDay t.rows d).countP (fun r => decide (r.event_id ≠ Val.vnull)))) := by
  obtain ⟨rs, hok, hfa⟩ := daily_max_mag_core t now H
  refine ⟨_, hok, ?_, ?_⟩
  · intro dr hdr
    rcases forall₂_mem_right hfa hdr with ⟨d', _, r0, harg, rfl⟩
    rcases argMaxMag_eq_some harg with ⟨m, hm, _⟩
    show r0.magnitude ≠ none
    rw [hm]
    intro hc
    cases hc
  · intro dr hdr d htime
    rcases forall₂_mem_right hfa hdr with ⟨d', _, r0, harg, rfl⟩
    have hdd : d' = d := by
      injection htime with h2
      omega
    subst hdd
    rfl

/-- Claim C7 witness: a day with one null-magnitude and one proper row
aggregates without error; the null row is not selected yet is counted. -/
theorem null_magnitude_spec_witness :
    ∃ out, aggregateDaily plainTable "daily_max_mag" none "energy_J" false none none 7 =
        Except.ok out ∧
      (∀ dr ∈ out.rows, dr.magnitude ≠ none) ∧
      (∀ dr ∈ out.rows, ∀ d, dr.time = some (1440 * d) →
        dr.event_count =
          some ((rowsOfDay plainTable.rows d).countP
            (fun r => decide (r.event_id ≠ Val.vnull)))) :=
  null_magnitude_spec plainTable 7 (by decide)

/-- Claim C7 counterexample: a single row with null magnitude makes
`daily_max_mag` raise (pandas `idxmax` on an all-NA group), refuting "rows
with null magnitude never cause daily aggregation to raise an error". -/
theorem null_magnitude_error_cex :
    aggregateDaily nullMagTable "daily_max_mag" none "energy_J" false none none 0 =
      Except.error "idxmax of an all-NA group" := rfl

/-- The aggregated day-0 row of `plainTable` under `daily_mag_threshold`:
the arg-max row among qualifying rows, with `event_count` sized over the
whole day group. -/
def thrOutRow : Row := { plainRow with time := some 0, event_count := some 2 }

/-- The expected `daily_mag_threshold` output table for `plainTable`. -/
def thrOutTable : Table := { energyCol := none, rows := [thrOutRow] }

/-- The expected gap-filled `daily_max_mag` output for `plainTable` over the
window `[day 0, day 2]`: the event day plus two empty days. -/
def fillOutTable : Table :=
  { energyCol := none
    rows := [thrOutRow, emptyDayRow false 1, emptyDayRow false 2] }

/-- Claim C3: `daily_mag_threshold` keeps, per day, the stable arg-max row
among the (date-windowed) rows with magnitude ≥ threshold; its
`event_count` counts all rows of that day in the windowed input (a pandas
`.size()`), not only rows meeting the threshold; a day whose rows all miss
the threshold produces no output row. -/
theorem daily_mag_threshold_spec (t : Table) (th : ℚ) (s e : Option ℤ) (now : ℤ) :
    ∃ out,
      aggregateDaily t "daily_mag_threshold" (some th) "energy_J" false s e now =
        Except.ok out ∧
      out.energyCol = t.energyCol ∧
      out.rows.map (fun r => r.time) =
        (dayKeys (thresholdSub (windowRows t.rows s e) th)).map (fun d => some (1440 * d)) ∧
      (∀ d, ∀ dr ∈ out.rows, dr.time = some (1440 * d) →
        ∃ r m, r ∈ rowsOfDay (thresholdSub (windowRows t.rows s e) th) d ∧
          r.magnitude = some m ∧ th ≤ m ∧
          (∀ r' ∈ rowsOfDay (thresholdSub (windowRows t.rows s e) th) d,
            ∀ m', r'.magnitude = some m' → m' ≤ m) ∧
          (∃ l₁ l₂, rowsOfDay (thresholdSub (windowRows t.rows s e) th) d = l₁ ++ r :: l₂ ∧
            ∀ r' ∈ l₁, r'.magnitude ≠ some m) ∧
          dr = { r with time := some (1440 * d),
                        event_count := some ((rowsOfDay (windowRows t.rows s e) d).length) }) ∧
      (∀ d, (∀ r ∈ rowsOfDay (windowRows t.rows s e) d, ∀ m, r.magnitude = some m → m < th) →
        ∀ dr ∈ out.rows, dr.time ≠ some (1440 * d)) := by
  set wrows := windowRows t.rows s e with hw
  set sub := thresholdSub wrows th with hsubdef
  have hdisp : ∀ rs, reduceThreshold wrows th = Except.ok rs →
      aggregateDaily t "daily_mag_threshold" (some th) "energy_J" false s e now =
        Except.ok { energyCol := t.energyCol, rows := rs } := by
    intro rs hred
    unfold aggregateDaily
    rw [if_neg (by decide)]
    have hcore : aggregateCore t "daily_mag_threshold" (some th) "energy_J" wrows =
        Except.ok { energyCol := t.energyCol, rows := rs } := by
      unfold aggregateCore
      rw [if_neg (by decide), if_pos rfl]
      show (reduceThreshold wrows th).map _ = _
      rw [hred]
      rfl
    simp only [← hw, hcore]
    rfl
  by_cases hemp : sub.isEmpty
  · have hred : reduceThreshold wrows th = Except.ok [] := by
      unfold reduceThreshold
      simp only [← hsubdef, hemp, if_true]
    have hsubnil : sub = [] := List.isEmpty_iff.mp hemp
    refine ⟨{ energyCol := t.energyCol, rows := [] }, hdisp [] hred, rfl, ?_, ?_, ?_⟩
    · rw [hsubnil]
      rfl
    · intro d dr hdr
      cases hdr
    · intro d _ dr hdr
      cases hdr
  · have hex : ∀ d ∈ dayKeys sub, ∃ dr,
        (match argMaxMag (rowsOfDay sub d) with
         | some r => Except.ok
             ({ r with
                time := some (1440 * d)
                event_count := some ((rowsOfDay wrows d).length) } : Row)
         | none => Except.error "idxmax of an all-NA group") = Except.ok dr := by
      intro d hd
      rcases mem_dayKeys.mp hd with ⟨r, hr, hday⟩
      rcases mem_thresholdSub.mp (hsubdef ▸ hr) with ⟨_, m, hm, _⟩
      rcases argMaxMag_isSome ⟨r, mem_rowsOfDay.mpr ⟨hr, hday⟩, by rw [hm]; intro h; cases h⟩
        with ⟨r0, hr0⟩
      exact ⟨_, by rw [hr0]⟩
    obtain ⟨rs, hrs⟩ := forall₂_exists_of_forall hex
    have hred : reduceThreshold wrows th = Except.ok rs := by
      unfold reduceThreshold
      simp only [← hsubdef, hemp, if_false, Bool.false_eq_true]
      exact mapM_except_eq_ok.mpr hrs
    refine ⟨{ energyCol := t.energyCol, rows := rs }, hdisp rs hred, rfl, ?_, ?_, ?_⟩
    · refine forall₂_map_eq hrs ?_
      intro d dr h
      cases harg : argMaxMag (rowsOfDay sub d) with
      | none => rw [harg] at h; cases h
      | some r0 =>
        rw [harg] at h
        injection h with h2
        rw [← h2]
    · intro d dr hdr htime
      rcases forall₂_mem_right hrs hdr with ⟨d', hd', hcell⟩
      cases harg : argMaxMag (rowsOfDay sub d') with
      | none => rw [harg] at hcell; cases hcell
      | some r0 =>
        rw [harg] at hcell
        injection hcell with h2
        rw [← h2] at htime
        have hdd : d' = d := by
          injection htime with h3
          omega
        subst hdd
        rcases argMaxMag_eq_some harg with ⟨m, hm, hmem, hmax, l₁, l₂, heq, hfirst⟩
        have hth : th ≤ m := by
          rcases mem_thresholdSub.mp (hsubdef ▸ (mem_rowsOfDay.mp hmem).1) with ⟨_, m2, hm2, hth2⟩
          rw [hm] at hm2
          injection hm2 with h4
          rw [h4]
          exact hth2
        exact ⟨r0, m, hmem, hm, hth, hmax, ⟨l₁, l₂, heq, hfirst⟩, h2.symm⟩
    · intro d hbelow dr hdr htime
      rcases forall₂_mem_right hrs hdr with ⟨d', hd', hcell⟩
      cases harg : argMaxMag (rowsOfDay sub d') with
      | none => rw [harg] at hcell; cases hcell
      | some r0 =>
        rw [harg] at hcell
        injection hcell with h2
        rw [← h2] at htime
        have hdd : d' = d := by
          injection htime with h3
          omega
        subst hdd
        rcases mem_dayKeys.mp hd' with ⟨r, hr, hday⟩
        rcases mem_thresholdSub.mp (hsubdef ▸ hr) with ⟨hrw, m, hm, hth⟩
        have hlt : m < th :=
          hbelow r (mem_rowsOfDay.mpr ⟨hrw, hday⟩) m hm
        exact absurd hth (not_le.mpr hlt)

/-- Claim C3 witness: the per-day selection clause at a concrete table with
one qualifying and one null-magnitude row on the same day. -/
theorem daily_mag_threshold_spec_witness :
    ∃ r m, r ∈ rowsOfDay (thresholdSub (windowRows plainTable.rows none none) 4) 0 ∧
      r.magnitude = some m ∧ (4 : ℚ) ≤ m ∧
      (∀ r' ∈ rowsOfDay (thresholdSub (windowRows plainTable.rows none none) 4) 0,
        ∀ m', r'.magnitude = some m' → m' ≤ m) ∧
      (∃ l₁ l₂, rowsOfDay (thresholdSub (windowRows plainTable.rows none none) 4) 0 =
        l₁ ++ r :: l₂ ∧ ∀ r' ∈ l₁, r'.magnitude ≠ some m) ∧
      thrOutRow = { r with
        time := some (1440 * 0)
        event_count := some ((rowsOfDay (windowRows plainTable.rows none none) 0).length) } := by
  obtain ⟨out, hok, hcol, hmap, hsel, hnone⟩ := daily_mag_threshold_spec plainTable 4 none none 0
  have h2 : Except.ok out = Except.ok thrOutTable := hok.symm.trans rfl
  injection h2 with h3
  subst h3
  exact hsel 0 thrOutRow (List.Mem.head _) rfl

/-- Claim C5 (amended): `daily_energy_sum` / `daily_energy_max` first
ensure an energy column, computing `10 ^ (1.44 + 5.24*M)` with the default
constants when the column is absent, then produce exactly one row per
calendar day with at least one (timed) source event, in ascending day
order, with `energy_J` the sum of the day's non-null energies (resp. their
max, null when all are null), `event_count` the number of the day's rows
with non-null event id, and `magnitude` the day's maximum non-null
magnitude. -/
theorem daily_energy_spec (t : Table) (mode : String) (s e : Option ℤ) (now : ℤ)
    (hm : mode = "daily_energy_sum" ∨ mode = "daily_energy_max") :
    ∃ out,
      aggregateDaily t mode none "energy_J" false s e now = Except.ok out ∧
      out.energyCol = some "energy_J" ∧
      out.rows.map (fun r => r.time) =
        (dayKeys (windowRows t.rows s e)).map (fun d => some (1440 * d)) ∧
      (t.energyCol ≠ some "energy_J" → ∀ i r, (windowRows t.rows s e).get? i = some r →
        ∃ r', (ensureEnergyRows (decide (t.energyCol = some "energy_J"))
                 (windowRows t.rows s e)).get? i = some r' ∧
          r'.magnitude = r.magnitude ∧ r'.time = r.time ∧
          r'.energy_J = r.magnitude.map (fun m2 => (10 : ℝ) ^ (((1.44 + 5.24 * m2 : ℚ) : ℝ)))) ∧
      (∀ d, ∀ dr ∈ out.rows, dr.time = some (1440 * d) →
        dr.event_count = some (countIds (rowsOfDay
          (ensureEnergyRows (decide (t.energyCol = some "energy_J"))
            (windowRows t.rows s e)) d)) ∧
        dr.magnitude = ((rowsOfDay (ensureEnergyRows (decide (t.energyCol = some "energy_J"))
          (windowRows t.rows s e)) d).filterMap (fun r => r.magnitude)).max? ∧
        (mode = "daily_energy_sum" →
          dr.energy_J = some (((rowsOfDay (ensureEnergyRows
            (decide (t.energyCol = some "energy_J")) (windowRows t.rows s e)) d).filterMap
              (fun r => r.energy_J)).sum)) ∧
        (mode = "daily_energy_max" →
          dr.energy_J = ((rowsOfDay (ensureEnergyRows
            (decide (t.energyCol = some "energy_J")) (windowRows t.rows s e)) d).filterMap
              (fun r => r.energy_J)).max?)) := by
  have hne1 : mode ≠ "all_events" := by rcases hm with rfl | rfl <;> decide
  have hne2 : mode ≠ "daily_max_mag" := by rcases hm with rfl | rfl <;> decide
  have hne3 : mode ≠ "daily_mag_threshold" := by rcases hm with rfl | rfl <;> decide
  set wrows := windowRows t.rows s e with hw
  set erows := ensureEnergyRows (decide (t.energyCol = some "energy_J")) wrows with hedef
  have hcore : aggregateCore t mode none "energy_J" wrows =
      Except.ok { energyCol := some "energy_J"
                  rows := reduceEnergy (decide (mode = "daily_energy_sum")) erows } := by
    unfold aggregateCore
    rw [if_neg hne2, if_neg hne3, if_pos hm]
  refine ⟨{ energyCol := some "energy_J"
            rows := reduceEnergy (decide (mode = "daily_energy_sum")) erows },
    ?_, rfl, ?_, ?_, ?_⟩
  · unfold aggregateDaily
    rw [if_neg hne1]
    simp only [← hw, hcore]
    rfl
  · show (List.map _ ((dayKeys erows).map _)) = _
    rw [hedef, dayKeys_ensureEnergyRows, List.map_map]
    rfl
  · intro hne i r hget
    have hdec : decide (t.energyCol = some "energy_J") = false := decide_eq_false hne
    rw [hedef, hdec]
    refine ⟨{ r with energy_J := r.magnitude.map (fun m => energyOf 1.44 5.24 m) },
      ?_, rfl, rfl, rfl⟩
    show ((wrows.map _).get? i) = _
    rw [List.get?_map, hget]
    rfl
  · intro d dr hdr htime
    rcases List.mem_map.mp hdr with ⟨d', hd', rfl⟩
    have hdd : d' = d := by
      injection htime with h2
      omega
    subst hdd
    refine ⟨rfl, rfl, ?_, ?_⟩
    · intro hsum
      subst hsum
      rfl
    · intro hmax
      subst hmax
      rfl

/-- Claim C5 witness: the amended claim at a concrete table under
`daily_energy_sum`. -/
theorem daily_energy_spec_witness :
    ∃ out,
      aggregateDaily plainTable "daily_energy_sum" none "energy_J" false none none 0 =
        Except.ok out ∧
      out.energyCol = some "energy_J" ∧
      out.rows.map (fun r => r.time) =
        (dayKeys (windowRows plainTable.rows none none)).map (fun d => some (1440 * d)) ∧
      (plainTable.energyCol ≠ some "energy_J" →
        ∀ i r, (windowRows plainTable.rows none none).get? i = some r →
        ∃ r', (ensureEnergyRows (decide (plainTable.energyCol = some "energy_J"))
                 (windowRows plainTable.rows none none)).get? i = some r' ∧
          r'.magnitude = r.magnitude ∧ r'.time = r.time ∧
          r'.energy_J = r.magnitude.map (fun m2 => (10 : ℝ) ^ (((1.44 + 5.24 * m2 : ℚ) : ℝ)))) ∧
      (∀ d, ∀ dr ∈ out.rows, dr.time = some (1440 * d) →
        dr.event_count = some (countIds (rowsOfDay
          (ensureEnergyRows (decide (plainTable.energyCol = some "energy_J"))
            (windowRows plainTable.rows none none)) d)) ∧
        dr.magnitude = ((rowsOfDay (ensureEnergyRows
          (decide (plainTable.energyCol = some "energy_J"))
          (windowRows plainTable.rows none none)) d).filterMap (fun r => r.magnitude)).max? ∧
        (("daily_energy_sum" : String) = "daily_energy_sum" →
          dr.energy_J = some (((rowsOfDay (ensureEnergyRows
            (decide (plainTable.energyCol = some "energy_J"))
            (windowRows plainTable.rows none none)) d).filterMap
              (fun r => r.energy_J)).sum)) ∧
        (("daily_energy_sum" : String) = "daily_energy_max" →
          dr.energy_J = ((rowsOfDay (ensureEnergyRows
            (decide (plainTable.energyCol = some "energy_J"))
            (windowRows plainTable.rows none none)) d).filterMap
              (fun r => r.energy_J)).max?)) :=
  daily_energy_spec plainTable "daily_energy_sum" none none 0 (Or.inl rfl)

/-- Claim C5 counterexample: under `daily_energy_sum`, a day holding exactly
one row whose event id is null gets `event_count = 0`, not 1: the count is a
pandas `count` of `event_id`, not the number of rows of the day. -/
theorem daily_energy_count_cex :
    (aggregateDaily nullIdTable "daily_energy_sum" none "energy_J" false none none 0).map
        (fun out => out.rows.map (fun r => r.event_count)) = Except.ok [some 0] ∧
    (rowsOfDay nullIdTable.rows 0).length = 1 := ⟨rfl, rfl⟩

/-- Every row a daily reduction produces sits on a day 00:00 inside the
explicit window: the reducers only emit day keys of windowed rows. -/
lemma core_rows_time {t : Table} {mode : String} {th : Option ℚ} {ec : String}
    {s e : ℤ} {res : Table}
    (hmode : mode = "daily_max_mag" ∨ mode = "daily_mag_threshold" ∨
      mode = "daily_energy_sum" ∨ mode = "daily_energy_max")
    (hcore : aggregateCore t mode th ec (windowRows t.rows (some s) (some e)) =
      Except.ok res) :
    ∀ r0 ∈ res.rows, ∃ d, r0.time = some (1440 * d) ∧ dayOf s ≤ d ∧ d ≤ dayOf e := by
  intro r0 hr0
  rcases hmode with rfl | rfl | rfl | rfl
  · unfold aggregateCore at hcore
    rw [if_pos rfl] at hcore
    cases hred : reduceMaxMag (windowRows t.rows (some s) (some e)) with
    | error msg =>
      rw [hred] at hcore
      exact absurd hcore (by intro hh; cases hh)
    | ok rs =>
      rw [hred] at hcore
      have h3 : Except.ok ({ energyCol := t.energyCol, rows := rs } : Table) =
          Except.ok res := hcore
      injection h3 with h4
      rw [← h4] at hr0
      rcases forall₂_mem_right (mapM_except_eq_ok.mp hred) hr0 with ⟨d, hd, hcell⟩
      cases harg : argMaxMag (rowsOfDay (windowRows t.rows (some s) (some e)) d) with
      | none => rw [harg] at hcell; cases hcell
      | some rr =>
        rw [harg] at hcell
        injection hcell with h5
        rcases mem_dayKeys.mp hd with ⟨r, hr, hday⟩
        rcases windowRows_day_bounds hr hday with ⟨hb1, hb2⟩
        exact ⟨d, by rw [← h5], hb1, hb2⟩
  · cases th with
    | none =>
      unfold aggregateCore at hcore
      rw [if_neg (by decide), if_pos rfl] at hcore
      exact absurd hcore (by intro hh; cases hh)
    | some thv =>
      unfold aggregateCore at hcore
      rw [if_neg (by decide), if_pos rfl] at hcore
      have hcore2 : Except.map (fun rs => ({ energyCol := t.energyCol, rows := rs } : Table))
          (reduceThreshold (windowRows t.rows (some s) (some e)) thv) = Except.ok res := hcore
      by_cases hemp : (thresholdSub (windowRows t.rows (some s) (some e)) thv).isEmpty
      · have hred : reduceThreshold (windowRows t.rows (some s) (some e)) thv =
            Except.ok [] := by
          unfold reduceThreshold
          rw [if_pos hemp]
        rw [hred] at hcore2
        have h3 : Except.ok ({ energyCol := t.energyCol, rows := [] } : Table) =
            Except.ok res := hcore2
        injection h3 with h4
        rw [← h4] at hr0
        cases hr0
      · have hred : reduceThreshold (windowRows t.rows (some s) (some e)) thv =
            (dayKeys (thresholdSub (windowRows t.rows (some s) (some e)) thv)).mapM
              (fun d =>
                match argMaxMag (rowsOfDay
                    (thresholdSub (windowRows t.rows (some s) (some e)) thv) d) with
                | some r => Except.ok
                    ({ r with
                       time := some (1440 * d)
                       event_count := some ((rowsOfDay
                         (windowRows t.rows (some s) (some e)) d).length) } : Row)
                | none => Except.error "idxmax of an all-NA group") := by
          unfold reduceThreshold
          rw [if_neg hemp]
        rw [hred] at hcore2
        cases hmm : (dayKeys (thresholdSub (windowRows t.rows (some s) (some e)) thv)).mapM
            (fun d =>
              match argMaxMag (rowsOfDay
                  (thresholdSub (windowRows t.rows (some s) (some e)) thv) d) with
              | some r => Except.ok
                  ({ r with
                     time := some (1440 * d)
                     event_count := some ((rowsOfDay
                       (windowRows t.rows (some s) (some e)) d).length) } : Row)
              | none => Except.error "idxmax of an all-NA group") with
        | error msg =>
          rw [hmm] at hcore2
          exact absurd hcore2 (by intro hh; cases hh)
        | ok rs =>
          rw [hmm] at hcore2
          have h3 : Except.ok ({ energyCol := t.energyCol, rows := rs } : Table) =
              Except.ok res := hcore2
          injection h3 with h4
          rw [← h4] at hr0
          rcases forall₂_mem_right (mapM_except_eq_ok.mp hmm) hr0 with ⟨d, hd, hcell⟩
          cases harg : argMaxMag (rowsOfDay
              (thresholdSub (windowRows t.rows (some s) (some e)) thv) d) with
          | none => rw [harg] at hcell; cases hcell
          | some rr =>
            rw [harg] at hcell
            injection hcell with h5
            rcases mem_dayKeys.mp hd with ⟨r, hr, hday⟩
            rcases windowRows_day_bounds (mem_thresholdSub.mp hr).1 hday with ⟨hb1, hb2⟩
            exact ⟨d, by rw [← h5], hb1, hb2⟩
  · unfold aggregateCore at hcore
    rw [if_neg (by decide), if_neg (by decide), if_pos (Or.inl rfl)] at hcore
    injection hcore with h4
    rw [← h4] at hr0
    rcases List.mem_map.mp hr0 with ⟨d, hd, rfl⟩
    rw [dayKeys_ensureEnergyRows] at hd
    rcases mem_dayKeys.mp hd with ⟨r, hr, hday⟩
    rcases windowRows_day_bounds hr hday with ⟨hb1, hb2⟩
    exact ⟨d, rfl, hb1, hb2⟩
  · unfold aggregateCore at hcore
    rw [if_neg (by decide), if_neg (by decide), if_pos (Or.inr rfl)] at hcore
    injection hcore with h4
    rw [← h4] at hr0
    rcases List.mem_map.mp hr0 with ⟨d, hd, rfl⟩
    rw [dayKeys_ensureEnergyRows] at hd
    rcases mem_dayKeys.mp hd with ⟨r, hr, hday⟩
    rcases windowRows_day_bounds hr hday with ⟨hb1, hb2⟩
    exact ⟨d, rfl, hb1, hb2⟩

/-- Claim C2: daily aggregation with `fill_empty_days=True` and explicit
`start <= end` produces exactly one row per calendar day in `[start, end]`
inclusive (day-floored, reference timezone), with unique day keys sorted
ascending; a missing day is inserted with time = that day's 00:00,
`event_count = 0`, null magnitude, and `energy_J = 0.0` exactly when an
`energy_J` column is part of the result; days present in the reduced result
are never removed. -/
theorem fill_empty_days_spec (t : Table) (mode : String) (th : Option ℚ) (ec : String)
    (s e now : ℤ) (out : Table)
    (hmode : mode = "daily_max_mag" ∨ mode = "daily_mag_threshold" ∨
      mode = "daily_energy_sum" ∨ mode = "daily_energy_max")
    (hse : s ≤ e)
    (hok : aggregateDaily t mode th ec true (some s) (some e) now = Except.ok out) :
    out.rows.map (fun r => r.time) =
      (rangeDays (dayOf s) (dayOf e)).map (fun d => some (1440 * d)) ∧
    (out.rows.filterMap rowDay).Pairwise (· < ·) ∧
    (out.rows.map (fun r => r.time)).Nodup ∧
    ∃ res, aggregateCore t mode th ec (windowRows t.rows (some s) (some e)) =
        Except.ok res ∧
      out.energyCol = res.energyCol ∧
      (∀ d, dayOf s ≤ d → d ≤ dayOf e →
        (∀ r0 ∈ res.rows, r0.time ≠ some (1440 * d)) →
        ∃ dr ∈ out.rows, dr.time = some (1440 * d) ∧ dr.event_count = some 0 ∧
          dr.magnitude = none ∧
          dr.energy_J = (if res.energyCol = some "energy_J" then some 0 else none)) ∧
      (∀ r0 ∈ res.rows, ∃ dr ∈ out.rows, dr.time = r0.time) := by
  have hne1 : mode ≠ "all_events" := by
    rcases hmode with rfl | rfl | rfl | rfl <;> decide
  unfold aggregateDaily at hok
  rw [if_neg hne1] at hok
  rcases hcore : aggregateCore t mode th ec (windowRows t.rows (some s) (some e)) with msg | res
  · rw [hcore] at hok
    exact absurd hok (by intro hh; cases hh)
  · rw [hcore] at hok
    have hok2 : Except.ok
        ({ energyCol := res.energyCol
           rows := fillDays (decide (res.energyCol = some "energy_J"))
             (dayOf s) (dayOf e) res.rows } : Table) = Except.ok out := hok
    injection hok2 with hout
    subst hout
    refine ⟨fillDays_map_time _ _ _ _, ?_, ?_, res, rfl, rfl, ?_, ?_⟩
    · show ((fillDays _ _ _ _).filterMap rowDay).Pairwise (· < ·)
      rw [fillDays_days]
      exact rangeDays_pairwise
    · show ((fillDays _ _ _ _).map (fun r => r.time)).Nodup
      rw [fillDays_map_time]
      refine List.Nodup.map ?_ ?_
      · intro x y hxy
        injection hxy with h2
        omega
      · exact List.Pairwise.imp (fun hab => ne_of_lt hab) rangeDays_pairwise
    · intro d h1 h2 hnone
      refine ⟨fillCell (decide (res.energyCol = some "energy_J")) res.rows d, ?_, ?_, ?_, ?_, ?_⟩
      · exact List.mem_map_of_mem _ (mem_rangeDays.mpr ⟨h1, h2⟩)
      · exact fillCell_time _ _ _
      · rw [fillCell_of_not_found hnone]
        rfl
      · rw [fillCell_of_not_found hnone]
        rfl
      · rw [fillCell_of_not_found hnone]
        by_cases hEJ : res.energyCol = some "energy_J"
        · rw [if_pos hEJ]
          show (if decide (res.energyCol = some "energy_J") = true then
            some (0 : ℝ) else none) = some 0
          rw [decide_eq_true hEJ]
          rfl
        · rw [if_neg hEJ]
          show (if decide (res.energyCol = some "energy_J") = true then
            some (0 : ℝ) else none) = none
          rw [decide_eq_false hEJ]
          rfl
    · intro r0 hr0
      rcases core_rows_time hmode hcore r0 hr0 with ⟨d, ht, h1, h2⟩
      refine ⟨fillCell (decide (res.energyCol = some "energy_J")) res.rows d, ?_, ?_⟩
      · exact List.mem_map_of_mem _ (mem_rangeDays.mpr ⟨h1, h2⟩)
      · rw [fillCell_time, ht]

/-- Claim C2 witness: day-key completeness at a concrete table over a
three-day window with one event day. -/
theorem fill_empty_days_spec_witness :
    fillOutTable.rows.map (fun r => r.time) =
      (rangeDays (dayOf 0) (dayOf 2880)).map (fun d => some (1440 * d)) :=
  (fill_empty_days_spec plainTable "daily_max_mag" none "energy_J" 0 2880 0
    fillOutTable (Or.inl rfl) (by decide) rfl).1

/-- Claim C6 witness: an unrecognized mode on a concrete dataset errors and
leaves the current table as it was. -/
theorem aggregate_config_error_witness :
    (∃ msg, (DS.aggregateDaily ⟨[], none⟩ "bogus" none "energy_J" false none none 0).2 =
      Except.error msg) ∧
    (DS.aggregateDaily ⟨[], none⟩ "bogus" none "energy_J" false none none 0).1 =
      (DS.toDataframe ⟨[], none⟩).2 ∧
    (DS.aggregateDaily ⟨[], none⟩ "bogus" none "energy_J" false none none 0).1.current =
      DS.current ⟨[], none⟩ :=
  aggregate_config_error ⟨[], none⟩ "bogus" none "energy_J" false none none 0
    (Or.inr (by decide))

end AfadQuake
